import Mathlib

/-!
# certapprover: the reconciliation engine of `approver.go`

A shallow embedding of `CertApprover.Reconcile`, `certificateRequestIsDecided`,
`approve` and `findObjectsForNamespace`.

The collaborators the Go code calls through interfaces (the controller-runtime
client, the rego policy, the event recorder, the logger, the clock) are modelled as
follows.

* The client is a record of functions over an abstract store state `σ`
  (`Client σ`); reads return a result and leave the store alone, the status patch
  returns a result and the next store.
* The compiled policy is a function from the input document to a result set or an
  evaluation error.
* Every call the Go code makes on a collaborator is appended to a list of `Call`s,
  in program order, so that "performs no patch" is a statement about that list.
* `metav1.Now()` is the parameter `now`.
* For the claims about what a status patch does to the stored status, the patch
  document is computed as controller-runtime computes it (`mergeFromPatch.Data`: the
  diff from the object given to `StrategicMergeFrom` to the object given to `Patch`),
  and `apiClient` is a sequential reference store that applies it, after checking the
  `resourceVersion` the document carries against the stored one.
-/

namespace Approver

/-! ## Data model -/

/-- Go's `metav1.Time`, as a number of seconds. -/
abbrev Time := Nat

/-- Go's `error` values that the collaborators can return. A nil error is `none`
of `Option Error`. -/
inductive Error where
  | NotFound
  | Conflict
  | Other (msg : String)
deriving DecidableEq, Repr

/-- The test `apierrors.IsNotFound`. -/
def Error.IsNotFound : Error → Bool
  | .NotFound => true
  | _ => false

/-- The constant `cm_meta.ConditionTrue`. -/
def ConditionTrue : String := "True"

/-- The constant `cm_v1.CertificateRequestConditionApproved`. -/
def CertificateRequestConditionApproved : String := "Approved"

/-- The constant `cm_v1.CertificateRequestConditionDenied`. -/
def CertificateRequestConditionDenied : String := "Denied"

/-- The struct `cm_v1.CertificateRequestCondition`. Its `Type` and `Status` are Go
string types, so any string can occur. -/
structure CertificateRequestCondition where
  Type_ : String
  Status : String
  LastTransitionTime : Option Time := none
  Reason : String := ""
  Message : String := ""
deriving DecidableEq, Repr

/-- The struct `cm_v1.CertificateRequestStatus`. A nil and an empty `Conditions`
slice are both the empty list. -/
structure CertificateRequestStatus where
  Conditions : List CertificateRequestCondition := []
  Certificate : List Nat := []
  CA : List Nat := []
  FailureTime : Option Time := none
deriving DecidableEq, Repr

/-- The part of `metav1.ObjectMeta` the program reads or that a policy can see. -/
structure ObjectMeta where
  Namespace : String := ""
  Name : String := ""
  Labels : List (String × String) := []
  ResourceVersion : String := ""
deriving DecidableEq, Repr

/-- The struct `cm_v1.CertificateRequest`; the spec is kept as an uninterpreted
string, the program never looks into it. -/
structure CertificateRequest where
  ObjectMeta : ObjectMeta := {}
  Spec : String := ""
  Status : CertificateRequestStatus := {}
deriving DecidableEq, Repr

/-- The accessor `GetName`. -/
def CertificateRequest.GetName (cr : CertificateRequest) : String := cr.ObjectMeta.Name

/-- The accessor `GetNamespace`. -/
def CertificateRequest.GetNamespace (cr : CertificateRequest) : String :=
  cr.ObjectMeta.Namespace

/-- The struct `corev1.Namespace`. -/
structure Namespace where
  ObjectMeta : ObjectMeta := {}
deriving DecidableEq, Repr

/-- The accessor `GetName` of a namespace object. -/
def Namespace.GetName (ns : Namespace) : String := ns.ObjectMeta.Name

/-- The struct `types.NamespacedName`. -/
structure NamespacedName where
  Namespace : String := ""
  Name : String := ""
deriving DecidableEq, Repr

/-- The struct `reconcile.Request` (also `ctrl.Request`). -/
structure Request where
  NamespacedName : NamespacedName
deriving DecidableEq, Repr

/-- The struct `ctrl.Result`. -/
structure Result where
  Requeue : Bool := false
  RequeueAfter : Nat := 0
deriving DecidableEq, Repr

/-- The struct `client.ListOptions`, of which the program sets `Namespace` only. -/
structure ListOptions where
  Namespace : String := ""
deriving DecidableEq, Repr

/-- The input document `map[string]interface{}{"object": cr, "namespace": namespace}`. -/
structure Input where
  object : CertificateRequest
  ns : Namespace
deriving DecidableEq, Repr

/-! ## The policy collaborator (rego) -/

/-- The value of a query expression in a rego result. -/
inductive Value where
  | bool (b : Bool)
  | other (text : String)
deriving DecidableEq, Repr

/-- One element of `rego.ResultSet`: the values of the query expressions and the
number of variable bindings. -/
structure RegoResult where
  Expressions : List Value := []
  Bindings : Nat := 0
deriving DecidableEq, Repr

/-- The type `rego.ResultSet`. -/
abbrev ResultSet := List RegoResult

/-- The method `rego.ResultSet.Allowed`: true exactly for one result with no
bindings and the single expression value `true`. -/
def ResultSet.Allowed (rs : ResultSet) : Bool :=
  match rs with
  | [r] =>
    if r.Bindings = 0 then
      match r.Expressions with
      | [Value.bool b] => b
      | _ => false
    else false
  | _ => false

/-- The compiled policy together with the fixed query `approval.allow`: what
`rego.New(...).Eval` returns for an input document. -/
abbrev Policy := Input → Except Error ResultSet

/-! ## The store collaborator (controller-runtime client) -/

/-- The value of `client.StrategicMergeFrom(obj)`: a patch of strategic-merge type
that remembers `obj` as its base (the field `from` of `mergeFromPatch`). -/
structure Patch where
  original : CertificateRequest
deriving DecidableEq, Repr

/-- The constructor `client.StrategicMergeFrom`. -/
def StrategicMergeFrom (obj : CertificateRequest) : Patch := ⟨obj⟩

/-- The interface `client.Client`, restricted to the calls the program makes, over a
store state `σ`. `StatusPatch` is `Status().Patch`: it returns the error or the
object as the server answered it (Go overwrites `cr` in place), and the next store. -/
structure Client (σ : Type) where
  Get : NamespacedName → σ → Except Error CertificateRequest
  GetNamespace : NamespacedName → σ → Except Error Namespace
  List : ListOptions → σ → Except Error (List CertificateRequest)
  StatusPatch : CertificateRequest → Patch → σ → Except Error CertificateRequest × σ

/-- One call on a collaborator, as it appears in program order. -/
inductive Call where
  | GetCertificateRequest (key : NamespacedName)
  | GetNamespace (key : NamespacedName)
  | List (opts : ListOptions)
  | Eval (input : Input)
  | StatusPatch (obj : CertificateRequest) (patch : Patch)
  | Event (obj : CertificateRequest) (eventtype reason message : String)
  | LogInfo (msg : String)
  | LogError (err : Error) (msg : String)
deriving DecidableEq, Repr

/-- Is the call a fetch of the Context (namespace)? -/
def Call.isGetNamespace : Call → Bool
  | .GetNamespace _ => true
  | _ => false

/-- Is the call a policy evaluation? -/
def Call.isEval : Call → Bool
  | .Eval _ => true
  | _ => false

/-- Is the call a status patch? -/
def Call.isStatusPatch : Call → Bool
  | .StatusPatch _ _ => true
  | _ => false

/-- Is the call an event emission? -/
def Call.isEvent : Call → Bool
  | .Event _ _ _ _ => true
  | _ => false

/-- The struct `CertApprover`; the event recorder is the `Event` calls of the trace. -/
structure CertApprover (σ : Type) where
  Client : Client σ
  Policy : Policy

/-- What one invocation of `Reconcile` returns (`Result`, `err`) and does (`calls`,
`store`). -/
structure Outcome (σ : Type) where
  result : Result
  err : Option Error
  calls : List Call
  store : σ

/-! ## The program -/

/-- The loop of `certificateRequestIsDecided` over `crs.Conditions`. -/
def certificateRequestIsDecided.loop : List CertificateRequestCondition → Bool
  | [] => false
  | con :: rest =>
    if con.Status == ConditionTrue &&
        (con.Type_ == CertificateRequestConditionApproved ||
          con.Type_ == CertificateRequestConditionDenied) then
      true
    else
      certificateRequestIsDecided.loop rest

/-- The method `certificateRequestIsDecided`. -/
def certificateRequestIsDecided (crs : CertificateRequestStatus) : Bool :=
  certificateRequestIsDecided.loop crs.Conditions

/-- The object `patch` that `approve` builds for `cr` at the observed time. -/
def approvePatchObject (transitionTime : Time) (cr : CertificateRequest) :
    CertificateRequest :=
  { ObjectMeta := { Namespace := cr.GetNamespace, Name := cr.GetName },
    Status :=
      { Conditions :=
          [{ Type_ := "Approved",
             Status := "True",
             LastTransitionTime := some transitionTime,
             Reason := "certapprover",
             Message := "CertificateRequest has been approved by certapprover" }] } }

/-- The method `approve`: `ca.Status().Patch(ctx, cr, client.StrategicMergeFrom(patch))`.
It returns the patch result, the next store and the call it made. -/
def approve {σ : Type} (ca : CertApprover σ) (now : Time) (cr : CertificateRequest)
    (s : σ) : (Except Error CertificateRequest × σ) × List Call :=
  let transitionTime := now
  let patch := approvePatchObject transitionTime cr
  (ca.Client.StatusPatch cr (StrategicMergeFrom patch) s,
    [Call.StatusPatch cr (StrategicMergeFrom patch)])

/-- The method `Reconcile`. -/
def Reconcile {σ : Type} (ca : CertApprover σ) (now : Time) (req : Request) (s : σ) :
    Outcome σ :=
  match ca.Client.Get req.NamespacedName s with
  | .error err =>
    ⟨{}, some err, [Call.GetCertificateRequest req.NamespacedName], s⟩
  | .ok cr =>
    if certificateRequestIsDecided cr.Status then
      ⟨{}, none,
        [Call.GetCertificateRequest req.NamespacedName,
         Call.LogInfo "skipping certificateRequest, as it is decided already"], s⟩
    else
      let nsKey : NamespacedName := { Name := req.NamespacedName.Namespace }
      match ca.Client.GetNamespace nsKey s with
      | .error err =>
        ⟨{}, some err,
          [Call.GetCertificateRequest req.NamespacedName, Call.GetNamespace nsKey,
           Call.LogError err "unable to get namespace"], s⟩
      | .ok ns =>
        let input : Input := { object := cr, ns := ns }
        match ca.Policy input with
        | .error err =>
          ⟨{}, some err,
            [Call.GetCertificateRequest req.NamespacedName, Call.GetNamespace nsKey,
             Call.Eval input, Call.LogInfo "Error during policy evalution"], s⟩
        | .ok rs =>
          if ResultSet.Allowed rs then
            match approve ca now cr s with
            | ((.error err, s1), calls) =>
              ⟨{}, some err,
                [Call.GetCertificateRequest req.NamespacedName, Call.GetNamespace nsKey,
                 Call.Eval input, Call.LogInfo "Policy evalution result"] ++ calls ++
                [Call.LogError err "unable to approve certificate request",
                 Call.Event cr "Warning" "Approval"
                   "Unable to approve policy, even though accepted by policy"], s1⟩
            | ((.ok cr1, s1), calls) =>
              ⟨{}, none,
                [Call.GetCertificateRequest req.NamespacedName, Call.GetNamespace nsKey,
                 Call.Eval input, Call.LogInfo "Policy evalution result"] ++ calls ++
                [Call.Event cr1 "Normal" "Approval" "Accepted by policy"], s1⟩
          else
            ⟨{}, none,
              [Call.GetCertificateRequest req.NamespacedName, Call.GetNamespace nsKey,
               Call.Eval input, Call.LogInfo "Policy evalution result"], s⟩

/-- The method `findObjectsForNamespace`: the identities it returns and the calls it
makes. -/
def findObjectsForNamespace {σ : Type} (ca : CertApprover σ) (ns : Namespace) (s : σ) :
    List Request × List Call :=
  let opts : ListOptions := { Namespace := ns.GetName }
  match ca.Client.List opts s with
  | .error err =>
    ([], [Call.List opts,
      Call.LogError err "unable to retrieve associated certificate requests for namespace"])
  | .ok items =>
    let requests := items.map fun item =>
      ({ NamespacedName := { Name := item.GetName, Namespace := item.GetNamespace } } : Request)
    (requests, [Call.List opts,
      Call.LogInfo "enqueuing requests for objects due to namespace change"])

/-! ## The patch document and a sequential model of the store -/

/-- One key of a merge patch document: absent, `null`, or a value. -/
inductive FieldPatch (α : Type) where
  | keep
  | delete
  | set (v : α)
deriving DecidableEq, Repr

/-- The `status` part of a two-way merge patch document for a CertificateRequest.
The status subresource acts on this part only. -/
structure StatusPatchData where
  conditions : FieldPatch (List CertificateRequestCondition) := .keep
  certificate : FieldPatch (List Nat) := .keep
  ca : FieldPatch (List Nat) := .keep
  failureTime : FieldPatch Time := .keep
deriving DecidableEq, Repr

/-- The diff of one `omitempty` slice field from `original` to `modified`. The Go
field `Conditions` has no `patchStrategy` tag, so the list is replaced as a whole. -/
def diffSlice {α : Type} [DecidableEq α] (original modified : List α) :
    FieldPatch (List α) :=
  if original = modified then .keep
  else if modified = [] then .delete
  else .set modified

/-- The diff of one `omitempty` pointer field from `original` to `modified`. -/
def diffPointer {α : Type} [DecidableEq α] (original modified : Option α) :
    FieldPatch α :=
  if original = modified then .keep
  else
    match modified with
    | none => .delete
    | some v => .set v

/-- The function `strategicpatch.CreateTwoWayMergePatch(originalJSON, modifiedJSON, _)`
on the status: the document that turns `original` into `modified`. -/
def createStrategicMergePatch (original modified : CertificateRequestStatus) :
    StatusPatchData :=
  { conditions := diffSlice original.Conditions modified.Conditions,
    certificate := diffSlice original.Certificate modified.Certificate,
    ca := diffSlice original.CA modified.CA,
    failureTime := diffPointer original.FailureTime modified.FailureTime }

/-- The method `mergeFromPatch.Data(obj)` of controller-runtime: `original := s.from`,
`modified := obj`. The base is the object given to `StrategicMergeFrom`, the target
is the object given to `Patch`. -/
def Patch.Data (p : Patch) (obj : CertificateRequest) : StatusPatchData :=
  createStrategicMergePatch p.original.Status obj.Status

/-- The diff of one `omitempty` string field from `original` to `modified`. -/
def diffString (original modified : String) : FieldPatch String :=
  if original = modified then .keep
  else if modified = "" then .delete
  else .set modified

/-- The key `metadata.resourceVersion` of the document `mergeFromPatch.Data(obj)`: the
version of `obj` whenever it differs from the one of the base. A store treats a
version in the document as a precondition on the stored object. -/
def Patch.ResourceVersion (p : Patch) (obj : CertificateRequest) : FieldPatch String :=
  diffString p.original.ObjectMeta.ResourceVersion obj.ObjectMeta.ResourceVersion

/-- Applying one key of a patch document to a stored slice field. -/
def applySlice {α : Type} (p : FieldPatch (List α)) (stored : List α) : List α :=
  match p with
  | .keep => stored
  | .delete => []
  | .set v => v

/-- Applying one key of a patch document to a stored pointer field. -/
def applyPointer {α : Type} (p : FieldPatch α) (stored : Option α) : Option α :=
  match p with
  | .keep => stored
  | .delete => none
  | .set v => some v

/-- The store applying a patch document to the status it holds. -/
def applyStatusPatch (d : StatusPatchData) (stored : CertificateRequestStatus) :
    CertificateRequestStatus :=
  { Conditions := applySlice d.conditions stored.Conditions,
    Certificate := applySlice d.certificate stored.Certificate,
    CA := applySlice d.ca stored.CA,
    FailureTime := applyPointer d.failureTime stored.FailureTime }

/-- The contents of the store. -/
structure Cluster where
  certificateRequests : List CertificateRequest := []
  namespaces : List Namespace := []
deriving DecidableEq, Repr

/-- Failures of the store that are not caused by its contents (network, conflict),
one switch per kind of call. -/
structure Faults where
  get : Option Error := none
  getNamespace : Option Error := none
  list : Option Error := none
  patch : Option Error := none
deriving DecidableEq, Repr

/-- Does the stored object pass the version precondition of a patch document? -/
def versionMatches (pre : FieldPatch String) (stored : CertificateRequest) : Bool :=
  match pre with
  | .set v => v == stored.ObjectMeta.ResourceVersion
  | _ => true

/-- The version the store gives an object when a write changes it. -/
def nextResourceVersion (v : String) : String := v ++ "+"

/-- Does the stored request have this identity? -/
def hasKey (key : NamespacedName) (cr : CertificateRequest) : Bool :=
  cr.GetNamespace == key.Namespace && cr.GetName == key.Name

/-- A sequential reference model of the resource store behind `client.Client` (the
store itself is not part of the repository): `Get` finds by identity or reports
`NotFound`, `List` filters by namespace (the empty filter selects all). `StatusPatch`
answers `Conflict` when the document carries a `resourceVersion` other than the stored
one; otherwise it applies the patch document `patch.Data(obj)` to the stored status of
`obj`, gives the object a new version if that changed it, and answers with the stored
object after the patch. -/
def apiClient (f : Faults) : Client Cluster where
  Get := fun key s =>
    match f.get with
    | some e => .error e
    | none =>
      match s.certificateRequests.find? (hasKey key) with
      | some cr => .ok cr
      | none => .error Error.NotFound
  GetNamespace := fun key s =>
    match f.getNamespace with
    | some e => .error e
    | none =>
      match s.namespaces.find? (fun ns => ns.GetName == key.Name) with
      | some ns => .ok ns
      | none => .error Error.NotFound
  List := fun opts s =>
    match f.list with
    | some e => .error e
    | none =>
      .ok (s.certificateRequests.filter
        (fun cr => opts.Namespace == "" || cr.GetNamespace == opts.Namespace))
  StatusPatch := fun obj patch s =>
    match f.patch with
    | some e => (.error e, s)
    | none =>
      let key : NamespacedName := { Namespace := obj.GetNamespace, Name := obj.GetName }
      match s.certificateRequests.find? (hasKey key) with
      | none => (.error Error.NotFound, s)
      | some stored =>
        if versionMatches (patch.ResourceVersion obj) stored then
          let status := applyStatusPatch (patch.Data obj) stored.Status
          let updated : CertificateRequest :=
            if status = stored.Status then stored
            else
              { stored with
                  ObjectMeta :=
                    { stored.ObjectMeta with
                        ResourceVersion :=
                          nextResourceVersion stored.ObjectMeta.ResourceVersion },
                  Status := status }
          (.ok updated,
            { s with certificateRequests :=
                s.certificateRequests.map (fun cr => if hasKey key cr then updated else cr) })
        else
          (.error Error.Conflict, s)

/-! ## Concrete inputs used by the examples -/

/-- A request `prod/r1` with no conditions. -/
def r1 : CertificateRequest :=
  { ObjectMeta := { Namespace := "prod", Name := "r1", ResourceVersion := "101" },
    Spec := "csr" }

/-- The request `prod/r1` already carrying `Denied=True`. -/
def r1Denied : CertificateRequest :=
  { r1 with Status := { Conditions := [{ Type_ := "Denied", Status := "True" }] } }

/-- The namespace `prod` with the label `env=prod`. -/
def nsProd : Namespace :=
  { ObjectMeta := { Name := "prod", Labels := [("env", "prod")] } }

/-- The namespace `staging` with the label `env=staging`. -/
def nsStaging : Namespace :=
  { ObjectMeta := { Name := "staging", Labels := [("env", "staging")] } }

/-- A request `staging/r2` with no conditions. -/
def r2 : CertificateRequest :=
  { ObjectMeta := { Namespace := "staging", Name := "r2", ResourceVersion := "102" },
    Spec := "csr" }

/-- The policy `allow { input.namespace.metadata.labels.env == "prod" }`. -/
def prodPolicy : Policy := fun input =>
  if input.ns.ObjectMeta.Labels.lookup "env" = some "prod" then
    .ok [{ Expressions := [Value.bool true] }]
  else
    .ok []

/-- A policy whose evaluation fails. -/
def brokenPolicy : Policy := fun _ => .error (Error.Other "eval")

/-- A store holding `prod/r1`, `staging/r2` and both namespaces. -/
def cluster0 : Cluster :=
  { certificateRequests := [r1, r2], namespaces := [nsProd, nsStaging] }

/-- The store of `cluster0` with `prod/r1` already denied. -/
def clusterDenied : Cluster :=
  { certificateRequests := [r1Denied, r2], namespaces := [nsProd, nsStaging] }

/-- The identity `prod/r1`. -/
def reqR1 : Request := ⟨{ Namespace := "prod", Name := "r1" }⟩

/-- The identity `staging/r2`. -/
def reqR2 : Request := ⟨{ Namespace := "staging", Name := "r2" }⟩

/-- The approver over the sequential store with the given faults and policy. -/
def approverOf (f : Faults) (p : Policy) : CertApprover Cluster :=
  { Client := apiClient f, Policy := p }

/-! ## Helper lemmas -/

theorem loop_eq_true_iff (l : List CertificateRequestCondition) :
    certificateRequestIsDecided.loop l = true ↔
      ∃ con ∈ l, con.Status = "True" ∧ (con.Type_ = "Approved" ∨ con.Type_ = "Denied") := by
  induction l with
  | nil => simp [certificateRequestIsDecided.loop]
  | cons con rest ih =>
    by_cases h : con.Status = "True" ∧ (con.Type_ = "Approved" ∨ con.Type_ = "Denied")
    · have hc : certificateRequestIsDecided.loop (con :: rest) = true := by
        simp [certificateRequestIsDecided.loop, ConditionTrue,
          CertificateRequestConditionApproved, CertificateRequestConditionDenied, h.1, h.2]
      simp [hc, h]
    · have hc : certificateRequestIsDecided.loop (con :: rest) =
          certificateRequestIsDecided.loop rest := by
        simp only [certificateRequestIsDecided.loop, ConditionTrue,
          CertificateRequestConditionApproved, CertificateRequestConditionDenied]
        rw [if_neg]
        simpa using h
      rw [hc, ih]
      simp [h]

theorem isDecided_iff (crs : CertificateRequestStatus) :
    certificateRequestIsDecided crs = true ↔
      ∃ con ∈ crs.Conditions,
        con.Status = "True" ∧ (con.Type_ = "Approved" ∨ con.Type_ = "Denied") :=
  loop_eq_true_iff crs.Conditions

theorem isDecided_perm (l1 l2 : List CertificateRequestCondition) (h : l1.Perm l2) :
    certificateRequestIsDecided.loop l1 = certificateRequestIsDecided.loop l2 := by
  rw [Bool.eq_iff_iff, loop_eq_true_iff, loop_eq_true_iff]
  constructor
  · rintro ⟨con, hm, hc⟩
    exact ⟨con, h.mem_iff.mp hm, hc⟩
  · rintro ⟨con, hm, hc⟩
    exact ⟨con, h.mem_iff.mpr hm, hc⟩

/-! ## Decision State Check -/

/-- C8: `certificateRequestIsDecided` returns true if and only if the condition list
contains a condition with status `True` and type `Approved` or `Denied`; the result is
the same for every reordering of the conditions; for the empty (or absent, a nil
slice) condition list it is false. -/
theorem certificateRequestIsDecided_spec (crs : CertificateRequestStatus) :
    (certificateRequestIsDecided crs = true ↔
      ∃ con ∈ crs.Conditions,
        con.Status = "True" ∧ (con.Type_ = "Approved" ∨ con.Type_ = "Denied")) ∧
    (∀ crs2 : CertificateRequestStatus, crs.Conditions.Perm crs2.Conditions →
      certificateRequestIsDecided crs = certificateRequestIsDecided crs2) ∧
    (crs.Conditions = [] → certificateRequestIsDecided crs = false) := by
  refine ⟨isDecided_iff crs, ?_, ?_⟩
  · intro crs2 hp
    exact isDecided_perm _ _ hp
  · intro he
    simp [certificateRequestIsDecided, he, certificateRequestIsDecided.loop]

/-- Witness of C8 at the status `[Ready=True, Denied=True]` and its reversal. -/
theorem certificateRequestIsDecided_spec_witness :
    certificateRequestIsDecided
        { Conditions := [{ Type_ := "Ready", Status := "True" },
                         { Type_ := "Denied", Status := "True" }] } =
      certificateRequestIsDecided
        { Conditions := [{ Type_ := "Denied", Status := "True" },
                         { Type_ := "Ready", Status := "True" }] } :=
  (certificateRequestIsDecided_spec
      { Conditions := [{ Type_ := "Ready", Status := "True" },
                       { Type_ := "Denied", Status := "True" }] }).2.1
    { Conditions := [{ Type_ := "Denied", Status := "True" },
                     { Type_ := "Ready", Status := "True" }] }
    (List.Perm.swap _ _ _)

/-! ## Reconciliation Controller -/

/-- C1: when the fetch of the Request succeeds and the fetched status holds a
condition of type `Approved` or `Denied` with status `True`, `Reconcile` returns no
error, and none of its calls is a fetch of the namespace, a policy evaluation, a
status patch or an event; its calls are the fetch and one log line, and the store is
left as it was. -/
theorem Reconcile_decided_noop {σ : Type} (ca : CertApprover σ) (now : Time)
    (req : Request) (s : σ) (cr : CertificateRequest)
    (hget : ca.Client.Get req.NamespacedName s = .ok cr)
    (hdec : ∃ con ∈ cr.Status.Conditions,
      con.Status = "True" ∧ (con.Type_ = "Approved" ∨ con.Type_ = "Denied")) :
    (Reconcile ca now req s).err = none ∧
    (∀ c ∈ (Reconcile ca now req s).calls,
      c.isGetNamespace = false ∧ c.isEval = false ∧ c.isStatusPatch = false ∧
        c.isEvent = false) ∧
    (Reconcile ca now req s).calls =
      [Call.GetCertificateRequest req.NamespacedName,
       Call.LogInfo "skipping certificateRequest, as it is decided already"] ∧
    (Reconcile ca now req s).store = s := by
  have hd : certificateRequestIsDecided cr.Status = true := (isDecided_iff _).mpr hdec
  have hr : Reconcile ca now req s =
      ⟨{}, none,
        [Call.GetCertificateRequest req.NamespacedName,
         Call.LogInfo "skipping certificateRequest, as it is decided already"], s⟩ := by
    simp only [Reconcile, hget, hd, if_true]
  rw [hr]
  refine ⟨rfl, ?_, rfl, rfl⟩
  intro c hc
  simp only [List.mem_cons, List.mem_singleton, List.not_mem_nil, or_false] at hc
  rcases hc with rfl | rfl <;> exact ⟨rfl, rfl, rfl, rfl⟩

/-- Witness of C1: `prod/r1` already carries `Denied=True` (scenario C). -/
theorem Reconcile_decided_noop_witness :
    (Reconcile (approverOf {} prodPolicy) 7 reqR1 clusterDenied).err = none ∧
    (∀ c ∈ (Reconcile (approverOf {} prodPolicy) 7 reqR1 clusterDenied).calls,
      c.isGetNamespace = false ∧ c.isEval = false ∧ c.isStatusPatch = false ∧
        c.isEvent = false) ∧
    (Reconcile (approverOf {} prodPolicy) 7 reqR1 clusterDenied).calls =
      [Call.GetCertificateRequest reqR1.NamespacedName,
       Call.LogInfo "skipping certificateRequest, as it is decided already"] ∧
    (Reconcile (approverOf {} prodPolicy) 7 reqR1 clusterDenied).store = clusterDenied :=
  Reconcile_decided_noop (approverOf {} prodPolicy) 7 reqR1 clusterDenied r1Denied
    (by rfl) ⟨{ Type_ := "Denied", Status := "True" }, by simp [r1Denied], rfl, Or.inr rfl⟩

/-- C5 as stated fails: on the empty store the fetch of `prod/r1` reports not found,
and `Reconcile` returns that error, not nil. -/
theorem Reconcile_notFound_counterexample :
    (approverOf {} prodPolicy).Client.Get reqR1.NamespacedName {} = .error Error.NotFound ∧
    (Reconcile (approverOf {} prodPolicy) 7 reqR1 {}).err = some Error.NotFound ∧
    (Reconcile (approverOf {} prodPolicy) 7 reqR1 {}).err ≠ none := by
  refine ⟨by rfl, by rfl, ?_⟩
  have h : (Reconcile (approverOf {} prodPolicy) 7 reqR1 {}).err = some Error.NotFound := by
    rfl
  rw [h]
  exact Option.some_ne_none _

/-- C5, amended: when the fetch of the Request reports not found, `Reconcile` ends
the attempt by returning that not-found error (a non-nil error), after the fetch alone:
no namespace fetch, no evaluation, no patch, no event, store untouched. -/
theorem Reconcile_notFound_returns_error {σ : Type} (ca : CertApprover σ) (now : Time)
    (req : Request) (s : σ)
    (hget : ca.Client.Get req.NamespacedName s = .error Error.NotFound) :
    (Reconcile ca now req s).err = some Error.NotFound ∧
    (Reconcile ca now req s).err ≠ none ∧
    (Reconcile ca now req s).calls = [Call.GetCertificateRequest req.NamespacedName] ∧
    (Reconcile ca now req s).store = s := by
  have hr : Reconcile ca now req s =
      ⟨{}, some Error.NotFound, [Call.GetCertificateRequest req.NamespacedName], s⟩ := by
    simp only [Reconcile, hget]
  rw [hr]
  exact ⟨rfl, Option.some_ne_none _, rfl, rfl⟩

/-- Witness of the amended C5 on the empty store. -/
theorem Reconcile_notFound_returns_error_witness :
    (Reconcile (approverOf {} prodPolicy) 7 reqR1 {}).err = some Error.NotFound ∧
    (Reconcile (approverOf {} prodPolicy) 7 reqR1 {}).err ≠ none ∧
    (Reconcile (approverOf {} prodPolicy) 7 reqR1 {}).calls =
      [Call.GetCertificateRequest reqR1.NamespacedName] ∧
    (Reconcile (approverOf {} prodPolicy) 7 reqR1 {}).store = {} :=
  Reconcile_notFound_returns_error (approverOf {} prodPolicy) 7 reqR1 {} (by rfl)

/-- C2: for an undecided Request, with both fetches and the evaluation succeeding and
a result set that is not an allow result, `Reconcile` returns no error, none of its
calls is a status patch or an event, and the store (so the stored status of the
Request) is left as it was. -/
theorem Reconcile_default_closed {σ : Type} (ca : CertApprover σ) (now : Time)
    (req : Request) (s : σ) (cr : CertificateRequest) (ns : Namespace) (rs : ResultSet)
    (hget : ca.Client.Get req.NamespacedName s = .ok cr)
    (hund : certificateRequestIsDecided cr.Status = false)
    (hns : ca.Client.GetNamespace { Name := req.NamespacedName.Namespace } s = .ok ns)
    (heval : ca.Policy { object := cr, ns := ns } = .ok rs)
    (hdeny : ResultSet.Allowed rs = false) :
    (Reconcile ca now req s).err = none ∧
    (∀ c ∈ (Reconcile ca now req s).calls, c.isStatusPatch = false ∧ c.isEvent = false) ∧
    (Reconcile ca now req s).store = s := by
  have hr : Reconcile ca now req s =
      ⟨{}, none,
        [Call.GetCertificateRequest req.NamespacedName,
         Call.GetNamespace { Name := req.NamespacedName.Namespace },
         Call.Eval { object := cr, ns := ns },
         Call.LogInfo "Policy evalution result"], s⟩ := by
    simp [Reconcile, hget, hund, hns, heval, hdeny]
  rw [hr]
  refine ⟨rfl, ?_, rfl⟩
  intro c hc
  simp only [List.mem_cons, List.mem_singleton, List.not_mem_nil, or_false] at hc
  rcases hc with rfl | rfl | rfl | rfl <;> exact ⟨rfl, rfl⟩

/-- Witness of C2: `staging/r2` under the policy that allows `env=prod` (scenario B). -/
theorem Reconcile_default_closed_witness :
    (Reconcile (approverOf {} prodPolicy) 7 reqR2 cluster0).err = none ∧
    (∀ c ∈ (Reconcile (approverOf {} prodPolicy) 7 reqR2 cluster0).calls,
      c.isStatusPatch = false ∧ c.isEvent = false) ∧
    (Reconcile (approverOf {} prodPolicy) 7 reqR2 cluster0).store = cluster0 :=
  Reconcile_default_closed (approverOf {} prodPolicy) 7 reqR2 cluster0 r2 nsStaging []
    (by rfl) (by rfl) (by rfl) (by rfl) (by rfl)

/-- On the allow path with a successful status patch, the calls of `Reconcile` are the
two fetches, the evaluation, one log line, the one status patch of `approve` and one
`Normal`/`Approval` event; `Reconcile` returns no error and leaves the store as the
patch left it. -/
theorem Reconcile_allow_trace {σ : Type} (ca : CertApprover σ) (now : Time)
    (req : Request) (s s1 : σ) (cr cr1 : CertificateRequest) (ns : Namespace)
    (rs : ResultSet)
    (hget : ca.Client.Get req.NamespacedName s = .ok cr)
    (hund : certificateRequestIsDecided cr.Status = false)
    (hns : ca.Client.GetNamespace { Name := req.NamespacedName.Namespace } s = .ok ns)
    (heval : ca.Policy { object := cr, ns := ns } = .ok rs)
    (hallow : ResultSet.Allowed rs = true)
    (hpatch : ca.Client.StatusPatch cr (StrategicMergeFrom (approvePatchObject now cr)) s =
      (.ok cr1, s1)) :
    Reconcile ca now req s =
      ⟨{}, none,
        [Call.GetCertificateRequest req.NamespacedName,
         Call.GetNamespace { Name := req.NamespacedName.Namespace },
         Call.Eval { object := cr, ns := ns },
         Call.LogInfo "Policy evalution result",
         Call.StatusPatch cr (StrategicMergeFrom (approvePatchObject now cr)),
         Call.Event cr1 "Normal" "Approval" "Accepted by policy"], s1⟩ := by
  simp [Reconcile, approve, hget, hund, hns, heval, hallow, hpatch]

/-- For an undecided `cr` the document that `approve` submits never sets the
conditions to a list holding an `Approved` condition with status `True`: its
`conditions` key is absent, `null`, or the conditions of `cr` itself. -/
theorem approve_document_sets_no_approval (now : Time) (cr : CertificateRequest)
    (hund : certificateRequestIsDecided cr.Status = false)
    (l : List CertificateRequestCondition)
    (hset : ((StrategicMergeFrom (approvePatchObject now cr)).Data cr).conditions =
      FieldPatch.set l) :
    ∀ con ∈ l, ¬ (con.Type_ = "Approved" ∧ con.Status = "True") := by
  have hl : l = cr.Status.Conditions := by
    simp only [Patch.Data, StrategicMergeFrom, createStrategicMergePatch, diffSlice] at hset
    split_ifs at hset with h1 h2
    exact (FieldPatch.set.inj hset).symm
  subst hl
  intro con hm hc
  have hd : certificateRequestIsDecided cr.Status = true :=
    (isDecided_iff _).mpr ⟨con, hm, hc.2, Or.inl hc.1⟩
  rw [hund] at hd
  exact Bool.false_ne_true hd

/-- C3 fails on the code (scenario A): for `prod/r1` without conditions, the namespace
`prod` labelled `env=prod` and the policy that allows `env=prod`, `Reconcile` returns no
error, issues exactly one status patch call and emits exactly one `Normal`/`Approval`
event, but the document that call submits (the diff from the object `approve` built
to the fetched Request) is `conditions: null`: it sets no condition list, so it carries
no `Approved` condition, and `prod/r1` is stored afterwards as it was, without an
`Approved` condition. -/
theorem Reconcile_allow_patch_lacks_approval :
    (Reconcile (approverOf {} prodPolicy) 7 reqR1 cluster0).err = none ∧
    (Reconcile (approverOf {} prodPolicy) 7 reqR1 cluster0).calls.filter Call.isStatusPatch =
      [Call.StatusPatch r1 (StrategicMergeFrom (approvePatchObject 7 r1))] ∧
    (∀ (obj : CertificateRequest) (patch : Patch),
      Call.StatusPatch obj patch ∈
          (Reconcile (approverOf {} prodPolicy) 7 reqR1 cluster0).calls →
        patch.Data obj = { conditions := .delete } ∧
        ∀ l : List CertificateRequestCondition,
          (patch.Data obj).conditions ≠ FieldPatch.set l) ∧
    (Reconcile (approverOf {} prodPolicy) 7 reqR1 cluster0).calls.filter Call.isEvent =
      [Call.Event r1 "Normal" "Approval" "Accepted by policy"] ∧
    (Reconcile (approverOf {} prodPolicy) 7 reqR1 cluster0).store.certificateRequests.find?
        (hasKey reqR1.NamespacedName) = some r1 ∧
    r1.Status.Conditions = [] := by
  have hr : Reconcile (approverOf {} prodPolicy) 7 reqR1 cluster0 =
      ⟨{}, none,
        [Call.GetCertificateRequest reqR1.NamespacedName,
         Call.GetNamespace { Name := reqR1.NamespacedName.Namespace },
         Call.Eval { object := r1, ns := nsProd },
         Call.LogInfo "Policy evalution result",
         Call.StatusPatch r1 (StrategicMergeFrom (approvePatchObject 7 r1)),
         Call.Event r1 "Normal" "Approval" "Accepted by policy"], cluster0⟩ := by
    rfl
  have hd : (StrategicMergeFrom (approvePatchObject 7 r1)).Data r1 =
      { conditions := .delete } := by rfl
  rw [hr]
  refine ⟨rfl, by rfl, ?_, by rfl, by rfl, by rfl⟩
  intro obj patch hm
  simp only [List.mem_cons, List.mem_singleton, List.not_mem_nil, or_false,
    Call.StatusPatch.injEq, false_or, reduceCtorEq] at hm
  obtain ⟨rfl, rfl⟩ := hm
  refine ⟨hd, ?_⟩
  intro l hl
  rw [hd] at hl
  exact FieldPatch.noConfusion hl

/-- C6: for an undecided Request, when the fetch of the namespace fails `Reconcile`
returns that error (non-nil) and none of its calls is an evaluation, a status patch or
an event; when the fetch succeeds and the policy evaluation fails `Reconcile` returns
that error (non-nil) and none of its calls is a status patch or an event. The store is
left as it was in both cases. -/
theorem Reconcile_fetch_or_eval_failure {σ : Type} (ca : CertApprover σ) (now : Time)
    (req : Request) (s : σ) (cr : CertificateRequest)
    (hget : ca.Client.Get req.NamespacedName s = .ok cr)
    (hund : certificateRequestIsDecided cr.Status = false) :
    (∀ e : Error,
      ca.Client.GetNamespace { Name := req.NamespacedName.Namespace } s = .error e →
        (Reconcile ca now req s).err = some e ∧
        (Reconcile ca now req s).err ≠ none ∧
        (∀ c ∈ (Reconcile ca now req s).calls,
          c.isEval = false ∧ c.isStatusPatch = false ∧ c.isEvent = false) ∧
        (Reconcile ca now req s).store = s) ∧
    (∀ (ns : Namespace) (e : Error),
      ca.Client.GetNamespace { Name := req.NamespacedName.Namespace } s = .ok ns →
      ca.Policy { object := cr, ns := ns } = .error e →
        (Reconcile ca now req s).err = some e ∧
        (Reconcile ca now req s).err ≠ none ∧
        (∀ c ∈ (Reconcile ca now req s).calls,
          c.isStatusPatch = false ∧ c.isEvent = false) ∧
        (Reconcile ca now req s).store = s) := by
  constructor
  · intro e hns
    have hr : Reconcile ca now req s =
        ⟨{}, some e,
          [Call.GetCertificateRequest req.NamespacedName,
           Call.GetNamespace { Name := req.NamespacedName.Namespace },
           Call.LogError e "unable to get namespace"], s⟩ := by
      simp [Reconcile, hget, hund, hns]
    rw [hr]
    refine ⟨rfl, Option.some_ne_none _, ?_, rfl⟩
    intro c hc
    simp only [List.mem_cons, List.mem_singleton, List.not_mem_nil, or_false] at hc
    rcases hc with rfl | rfl | rfl <;> exact ⟨rfl, rfl, rfl⟩
  · intro ns e hns heval
    have hr : Reconcile ca now req s =
        ⟨{}, some e,
          [Call.GetCertificateRequest req.NamespacedName,
           Call.GetNamespace { Name := req.NamespacedName.Namespace },
           Call.Eval { object := cr, ns := ns },
           Call.LogInfo "Error during policy evalution"], s⟩ := by
      simp [Reconcile, hget, hund, hns, heval]
    rw [hr]
    refine ⟨rfl, Option.some_ne_none _, ?_, rfl⟩
    intro c hc
    simp only [List.mem_cons, List.mem_singleton, List.not_mem_nil, or_false] at hc
    rcases hc with rfl | rfl | rfl | rfl <;> exact ⟨rfl, rfl⟩

/-- Witness of C6: the policy evaluation fails for `prod/r1` (scenario D). -/
theorem Reconcile_fetch_or_eval_failure_witness :
    (Reconcile (approverOf {} brokenPolicy) 7 reqR1 cluster0).err =
      some (Error.Other "eval") ∧
    (Reconcile (approverOf {} brokenPolicy) 7 reqR1 cluster0).err ≠ none ∧
    (∀ c ∈ (Reconcile (approverOf {} brokenPolicy) 7 reqR1 cluster0).calls,
      c.isStatusPatch = false ∧ c.isEvent = false) ∧
    (Reconcile (approverOf {} brokenPolicy) 7 reqR1 cluster0).store = cluster0 :=
  (Reconcile_fetch_or_eval_failure (approverOf {} brokenPolicy) 7 reqR1 cluster0 r1
    (by rfl) (by rfl)).2 nsProd (Error.Other "eval") (by rfl) (by rfl)

/-- C7: for an undecided Request, with both fetches succeeding, an allow result and a
failing status patch, the calls of `Reconcile` hold exactly one event, of type `Warning`
with reason `Approval`, no event of type `Normal`, and `Reconcile` returns the patch
error (non-nil). -/
theorem Reconcile_patch_failure_warns {σ : Type} (ca : CertApprover σ) (now : Time)
    (req : Request) (s s1 : σ) (cr : CertificateRequest) (ns : Namespace)
    (rs : ResultSet) (e : Error)
    (hget : ca.Client.Get req.NamespacedName s = .ok cr)
    (hund : certificateRequestIsDecided cr.Status = false)
    (hns : ca.Client.GetNamespace { Name := req.NamespacedName.Namespace } s = .ok ns)
    (heval : ca.Policy { object := cr, ns := ns } = .ok rs)
    (hallow : ResultSet.Allowed rs = true)
    (hpatch : ca.Client.StatusPatch cr (StrategicMergeFrom (approvePatchObject now cr)) s =
      (.error e, s1)) :
    (Reconcile ca now req s).err = some e ∧
    (Reconcile ca now req s).err ≠ none ∧
    (Reconcile ca now req s).calls.filter Call.isEvent =
      [Call.Event cr "Warning" "Approval"
        "Unable to approve policy, even though accepted by policy"] ∧
    (∀ (obj : CertificateRequest) (reason message : String),
      Call.Event obj "Normal" reason message ∉ (Reconcile ca now req s).calls) := by
  have hr : Reconcile ca now req s =
      ⟨{}, some e,
        [Call.GetCertificateRequest req.NamespacedName,
         Call.GetNamespace { Name := req.NamespacedName.Namespace },
         Call.Eval { object := cr, ns := ns },
         Call.LogInfo "Policy evalution result",
         Call.StatusPatch cr (StrategicMergeFrom (approvePatchObject now cr)),
         Call.LogError e "unable to approve certificate request",
         Call.Event cr "Warning" "Approval"
           "Unable to approve policy, even though accepted by policy"], s1⟩ := by
    simp [Reconcile, approve, hget, hund, hns, heval, hallow, hpatch]
  rw [hr]
  refine ⟨rfl, Option.some_ne_none _, rfl, ?_⟩
  intro obj reason message hc
  simp at hc

/-- Witness of C7: the store answers the patch of `prod/r1` with a conflict
(scenario E). -/
theorem Reconcile_patch_failure_warns_witness :
    (Reconcile (approverOf { patch := some Error.Conflict } prodPolicy) 7 reqR1 cluster0).err =
      some Error.Conflict ∧
    (Reconcile (approverOf { patch := some Error.Conflict } prodPolicy) 7 reqR1 cluster0).err ≠
      none ∧
    (Reconcile (approverOf { patch := some Error.Conflict } prodPolicy) 7 reqR1
        cluster0).calls.filter Call.isEvent =
      [Call.Event r1 "Warning" "Approval"
        "Unable to approve policy, even though accepted by policy"] ∧
    (∀ (obj : CertificateRequest) (reason message : String),
      Call.Event obj "Normal" reason message ∉
        (Reconcile (approverOf { patch := some Error.Conflict } prodPolicy) 7 reqR1
          cluster0).calls) :=
  Reconcile_patch_failure_warns (approverOf { patch := some Error.Conflict } prodPolicy) 7
    reqR1 cluster0 cluster0 r1 nsProd [{ Expressions := [Value.bool true] }] Error.Conflict
    (by rfl) (by rfl) (by rfl) (by rfl) (by rfl) (by rfl)

/-! ## Context-Change Fanout -/

/-- C9: for a namespace object named `N`, `findObjectsForNamespace` issues the listing
with the namespace filter `N` and no other listing. When the listing succeeds with
items `i_1..i_k` it returns `k` identities, the `j`-th being (namespace of `i_j`, name
of `i_j`); hence, whenever the items are exactly the stored Requests of namespace `N`
(the contract of the store's `List`), an identity is returned if and only if it is the
identity of a stored Request of namespace `N`. When the listing fails it returns the
empty list; its result type holds no error. -/
theorem findObjectsForNamespace_spec {σ : Type} (ca : CertApprover σ) (ns : Namespace)
    (s : σ) :
    (Call.List { Namespace := ns.GetName } ∈ (findObjectsForNamespace ca ns s).2 ∧
      ∀ opts : ListOptions, Call.List opts ∈ (findObjectsForNamespace ca ns s).2 →
        opts = { Namespace := ns.GetName }) ∧
    (∀ items : List CertificateRequest,
      ca.Client.List { Namespace := ns.GetName } s = .ok items →
        (findObjectsForNamespace ca ns s).1.length = items.length ∧
        (∀ j : Nat, (findObjectsForNamespace ca ns s).1[j]? =
          (items[j]?).map (fun item =>
            ({ NamespacedName :=
                { Namespace := item.GetNamespace, Name := item.GetName } } : Request))) ∧
        (∀ stored : List CertificateRequest,
          (∀ r : CertificateRequest,
            r ∈ items ↔ r ∈ stored ∧ r.GetNamespace = ns.GetName) →
          ∀ id : Request, id ∈ (findObjectsForNamespace ca ns s).1 ↔
            ∃ r ∈ stored, r.GetNamespace = ns.GetName ∧
              id = { NamespacedName :=
                      { Namespace := r.GetNamespace, Name := r.GetName } })) ∧
    (∀ e : Error, ca.Client.List { Namespace := ns.GetName } s = .error e →
      (findObjectsForNamespace ca ns s).1 = []) := by
  refine ⟨?_, ?_, ?_⟩
  · cases hl : ca.Client.List { Namespace := ns.GetName } s with
    | error e => simp [findObjectsForNamespace, hl]
    | ok items => simp [findObjectsForNamespace, hl]
  · intro items hl
    have hr : (findObjectsForNamespace ca ns s).1 =
        items.map (fun item =>
          ({ NamespacedName :=
              { Namespace := item.GetNamespace, Name := item.GetName } } : Request)) := by
      simp [findObjectsForNamespace, hl]
    rw [hr]
    refine ⟨by simp, ?_, ?_⟩
    · intro j
      simp [List.getElem?_map]
    · intro stored hc id
      simp only [List.mem_map]
      constructor
      · rintro ⟨r, hm, rfl⟩
        exact ⟨r, ((hc r).mp hm).1, ((hc r).mp hm).2, rfl⟩
      · rintro ⟨r, hm, hn, rfl⟩
        exact ⟨r, (hc r).mpr ⟨hm, hn⟩, rfl⟩
  · intro e hl
    simp [findObjectsForNamespace, hl]

/-- Witness of C9: a change of the namespace `prod` in the store holding `prod/r1` and
`staging/r2` re-enqueues the identities of the stored Requests of `prod`. -/
theorem findObjectsForNamespace_spec_witness :
    ∀ id : Request, id ∈ (findObjectsForNamespace (approverOf {} prodPolicy) nsProd cluster0).1 ↔
      ∃ r ∈ cluster0.certificateRequests, r.GetNamespace = nsProd.GetName ∧
        id = { NamespacedName := { Namespace := r.GetNamespace, Name := r.GetName } } :=
  ((findObjectsForNamespace_spec (approverOf {} prodPolicy) nsProd cluster0).2.1 [r1]
    (by rfl)).2.2 cluster0.certificateRequests (by
      intro r
      constructor
      · intro h
        have hr : r = r1 := by simpa using h
        subst hr
        exact ⟨by simp [cluster0], by rfl⟩
      · rintro ⟨h, hn⟩
        have hr : r = r1 ∨ r = r2 := by simpa [cluster0] using h
        rcases hr with rfl | rfl
        · simp
        · exact absurd hn (by decide))

/-! ## Transition Applier -/

/-- The patch document of `approve` never carries the condition that `approve`
built: its `conditions` key is absent, `null`, or the conditions of `cr` itself. -/
theorem approve_patch_conditions (now : Time) (cr : CertificateRequest)
    (stored : CertificateRequestStatus) :
    (applyStatusPatch ((StrategicMergeFrom (approvePatchObject now cr)).Data cr)
        stored).Conditions = stored.Conditions ∨
    (applyStatusPatch ((StrategicMergeFrom (approvePatchObject now cr)).Data cr)
        stored).Conditions = cr.Status.Conditions := by
  simp only [applyStatusPatch, Patch.Data, StrategicMergeFrom, createStrategicMergePatch,
    diffSlice]
  split_ifs with h1 h2
  · exact Or.inl rfl
  · exact Or.inr (by simp [applySlice, h2])
  · exact Or.inr rfl

/-- The reference store answers a patch of a Request that changed since it was
fetched with a conflict and keeps what it holds: here `prod/r1` gained a `Ready`
condition (and a new version) after the fetch. -/
theorem apiClient_stale_patch_conflict :
    (apiClient {}).StatusPatch r1 (StrategicMergeFrom (approvePatchObject 7 r1))
        { certificateRequests :=
            [{ r1 with
                ObjectMeta := { r1.ObjectMeta with ResourceVersion := "103" },
                Status := { Conditions := [{ Type_ := "Ready", Status := "False" }] } }],
          namespaces := [nsProd] } =
      (.error Error.Conflict,
        { certificateRequests :=
            [{ r1 with
                ObjectMeta := { r1.ObjectMeta with ResourceVersion := "103" },
                Status := { Conditions := [{ Type_ := "Ready", Status := "False" }] } }],
          namespaces := [nsProd] }) := by
  rfl

/-- C4 fails on the code: for `cr = prod/r1` (no conditions) and time 7, `approve`
calls `Status().Patch(cr, StrategicMergeFrom(patch))`, whose patch document is the diff
from the built object `patch` to `cr`. That document is `conditions: null`; applied to
the stored status of `prod/r1` it adds no `Approved` condition (the store is unchanged
although the call succeeds). As a function on statuses it is not additive either: it
maps a status holding a `Ready` condition to one without conditions (a store that
checks the `resourceVersion` the document also carries answers such a stale patch
with a conflict, see `apiClient_stale_patch_conflict`). -/
theorem approve_patch_not_additive :
    (approve (approverOf {} prodPolicy) 7 r1 cluster0).2 =
      [Call.StatusPatch r1 (StrategicMergeFrom (approvePatchObject 7 r1))] ∧
    (StrategicMergeFrom (approvePatchObject 7 r1)).Data r1 = { conditions := .delete } ∧
    applyStatusPatch ((StrategicMergeFrom (approvePatchObject 7 r1)).Data r1) r1.Status =
      r1.Status ∧
    (∀ con ∈ (applyStatusPatch ((StrategicMergeFrom (approvePatchObject 7 r1)).Data r1)
        r1.Status).Conditions, con.Type_ ≠ "Approved") ∧
    (approve (approverOf {} prodPolicy) 7 r1 cluster0).1 = (.ok r1, cluster0) ∧
    applyStatusPatch ((StrategicMergeFrom (approvePatchObject 7 r1)).Data r1)
        { Conditions := [{ Type_ := "Ready", Status := "False" }] } =
      { Conditions := [] } := by
  refine ⟨by rfl, by rfl, by rfl, ?_, by rfl, by rfl⟩
  intro con hc
  have he : (applyStatusPatch ((StrategicMergeFrom (approvePatchObject 7 r1)).Data r1)
      r1.Status).Conditions = [] := by rfl
  rw [he] at hc
  exact absurd hc (List.not_mem_nil _)

/-- C10 fails on the code: in the store holding `prod/r1` (no conditions) and the
namespace `prod`, under the policy that allows `env=prod`, the first `Reconcile` of
`prod/r1` patches successfully (no error, a `Normal` event) and leaves the store as it
was, so the second `Reconcile` finds the Request undecided and issues a status patch
again. -/
theorem Reconcile_twice_patches_twice :
    (Reconcile (approverOf {} prodPolicy) 7 reqR1 cluster0).err = none ∧
    (Reconcile (approverOf {} prodPolicy) 7 reqR1 cluster0).calls.filter Call.isStatusPatch =
      [Call.StatusPatch r1 (StrategicMergeFrom (approvePatchObject 7 r1))] ∧
    (Reconcile (approverOf {} prodPolicy) 7 reqR1 cluster0).calls.filter Call.isEvent =
      [Call.Event r1 "Normal" "Approval" "Accepted by policy"] ∧
    (Reconcile (approverOf {} prodPolicy) 7 reqR1 cluster0).store = cluster0 ∧
    (Reconcile (approverOf {} prodPolicy) 8 reqR1
        (Reconcile (approverOf {} prodPolicy) 7 reqR1 cluster0).store).calls.filter
          Call.isStatusPatch =
      [Call.StatusPatch r1 (StrategicMergeFrom (approvePatchObject 8 r1))] ∧
    (Reconcile (approverOf {} prodPolicy) 8 reqR1
        (Reconcile (approverOf {} prodPolicy) 7 reqR1 cluster0).store).store = cluster0 := by
  refine ⟨by rfl, by rfl, by rfl, by rfl, by rfl, by rfl⟩

end Approver
